import Mathlib

/-!
Verification development for the iterative orchestration engine of the
agentic-swarm-coder repository: a shallow embedding of the retrying
invocation gateway (`backoff.py`), the QA status resolver
(`workflow/qa.py` and the duplicate helpers in `pipeline.py`), the test
execution adapter (`workflow/testing.py`), and the workflow controller
loop (`pipeline.execute_workflow`), together with theorems settling the
specified properties.
-/

namespace ASC

/- ### Python string primitives used by the QA status resolver -/

/-- Characters matched by Python's `str.isspace` / the regex class `\s`
(Unicode whitespace, the set relevant to `str.strip` and the
`_QA_STATUS_PATTERN` regex). -/
def isPySpace (c : Char) : Bool :=
  c == ' ' || c == '\t' || c == '\n' || c == '\r' ||
  c.val == 0x0b || c.val == 0x0c ||
  (0x1c ≤ c.val && c.val ≤ 0x1f) || c.val == 0x85 || c.val == 0xa0 ||
  c.val == 0x1680 || (0x2000 ≤ c.val && c.val ≤ 0x200a) ||
  c.val == 0x2028 || c.val == 0x2029 || c.val == 0x202f ||
  c.val == 0x205f || c.val == 0x3000

/-- Line boundaries recognised by Python's `str.splitlines`. -/
def isLineBoundary (c : Char) : Bool :=
  c == '\n' || c == '\r' || c.val == 0x0b || c.val == 0x0c ||
  (0x1c ≤ c.val && c.val ≤ 0x1e) || c.val == 0x85 ||
  c.val == 0x2028 || c.val == 0x2029

/-- Python `str.strip()`: remove leading and trailing whitespace. -/
def pyStrip (s : String) : String :=
  ⟨((s.data.dropWhile isPySpace).reverse.dropWhile isPySpace).reverse⟩

/-- First pass of `pySplitlines`: a `\r` immediately followed by `\n` is a
single boundary, so collapse the pair into one `\n`. -/
def collapseCRLF : List Char → List Char
  | [] => []
  | [c] => [c]
  | c1 :: c2 :: rest =>
    if c1 = '\r' ∧ c2 = '\n' then '\n' :: collapseCRLF rest
    else c1 :: collapseCRLF (c2 :: rest)

/-- Second pass of `pySplitlines`: split on single-character line
boundaries; `acc` holds the current line reversed, and a terminal
boundary produces no trailing empty line. -/
def splitRaw : List Char → List Char → List String
  | [], acc => if acc.isEmpty then [] else [String.mk acc.reverse]
  | c :: rest, acc =>
    if isLineBoundary c then String.mk acc.reverse :: splitRaw rest []
    else splitRaw rest (c :: acc)

/-- Python `str.splitlines()` (no trailing empty line; `\r\n` is a single
boundary). -/
def pySplitlines (s : String) : List String :=
  splitRaw (collapseCRLF s.data) []

/- ### Data model (`schemas.py`, `workflow/types.py`, `config.py`) -/

/-- Python `sep.join(parts)`. -/
def pyJoin (sep : String) : List String → String
  | [] => ""
  | [a] => a
  | a :: rest => a ++ sep ++ pyJoin sep rest

/-- The `Literal["PASS", "FAIL"]` status field of `QAReview`. -/
inductive QAStatus where
  | PASS
  | FAIL
deriving DecidableEq

/-- Rendering of the status literal, as Python string formatting shows it. -/
def statusStr : QAStatus → String
  | .PASS => "PASS"
  | .FAIL => "FAIL"

/-- `schemas.QAReview`: structured response produced by the QA agent. -/
structure QAReview where
  status : QAStatus
  summary : String
  issues : List String
deriving DecidableEq

/-- `config.RuntimeSettings`: resolved settings required to run the workflow. -/
structure RuntimeSettings where
  goal : String
  workspace : String
  max_iterations : Nat
deriving DecidableEq

/-- `workflow/types.TestRunResult` (also duplicated in `pipeline.py`). -/
structure TestRunResult where
  command : Option String
  exit_code : Option Int
  output : Option String
deriving DecidableEq

/-- `workflow/types.IterationResult` (also duplicated in `pipeline.py`). -/
structure IterationResult where
  plan_summary : String
  coder_summary : String
  qa_summary : String
  qa_review : Option QAReview
  test_command : Option String
  test_exit_code : Option Int
  test_output : Option String
deriving DecidableEq

/-- `workflow/types.WorkflowResult` (also duplicated in `pipeline.py`). -/
structure WorkflowResult where
  iterations : List IterationResult
  success : Bool
deriving DecidableEq

/- ### The `_QA_STATUS_PATTERN` regex
`^\s*\**\s*OVERALL_STATUS:\s*(PASS|FAIL)\s*\**\s*$` with `re.IGNORECASE`,
compiled identically in `workflow/qa.py` and in `pipeline.py`.  The regex
is transcribed as a deterministic scanner, which is equivalent here
because the character classes of adjacent pieces are disjoint. -/

/-- Drop a maximal run of whitespace (`\s*`). -/
def dropWs (l : List Char) : List Char := l.dropWhile isPySpace

/-- Drop a maximal run of asterisks (`\**`). -/
def dropStars (l : List Char) : List Char := l.dropWhile (· == '*')

/-- Case-insensitive literal match: consume `pat` (given lowercase) from the
head of `l`, returning the remainder. -/
def stripCaseless : List Char → List Char → Option (List Char)
  | [], l => some l
  | _ :: _, [] => none
  | p :: ps, c :: cs => if Char.toLower c = p then stripCaseless ps cs else none

/-- The tail `\s*\**\s*$` of the regex. -/
def tailMatches (l : List Char) : Bool :=
  (dropWs (dropStars (dropWs l))).isEmpty

/-- `_QA_STATUS_PATTERN.match(line)` followed by the `group(1).upper()`
comparison: `some true` for a PASS line, `some false` for a FAIL line,
`none` when the line does not match. -/
def matchOverallStatus (line : String) : Option Bool :=
  match stripCaseless "overall_status:".data
      (dropWs (dropStars (dropWs line.data))) with
  | none => none
  | some l1 =>
    match stripCaseless "pass".data (dropWs l1) with
    | some l3 => if tailMatches l3 then some true else none
    | none =>
      match stripCaseless "fail".data (dropWs l1) with
      | some l3 => if tailMatches l3 then some false else none
      | none => none

/-- The `for line in reversed(...)` scan: first matching line decides. -/
def scanStatus : List String → Option Bool
  | [] => none
  | l :: ls =>
    match matchOverallStatus l with
    | some d => some d
    | none => scanStatus ls

/-- `workflow.qa.qa_passed`: structured review decides by its status;
otherwise scan `qa_output.strip().splitlines()` from the end backward. -/
def qa_passed (review : Option QAReview) (qa_output : String) : Option Bool :=
  match review with
  | some r => some (r.status == QAStatus.PASS)
  | none => scanStatus (pySplitlines (pyStrip qa_output)).reverse

/-- `pipeline._qa_passed`: the pipeline module's own copy, with the same
body and the identically compiled `_QA_STATUS_PATTERN`. -/
def pipeline_qa_passed (review : Option QAReview) (qa_output : String) :
    Option Bool :=
  match review with
  | some r => some (r.status == QAStatus.PASS)
  | none => scanStatus (pySplitlines (pyStrip qa_output)).reverse

/- ### Retrying invocation gateway (`backoff.py`) -/

/-- The failure kinds raised by the agent capability boundary:
`openai.RateLimitError`, `agents.exceptions.MaxTurnsExceeded`, and any
other exception.  The payload tags a concrete error instance so that
"the original error is re-raised" is expressible. -/
inductive AgentError where
  | rateLimited (e : Nat)
  | maxTurnsExceeded (e : Nat)
  | other (e : Nat)
deriving DecidableEq

/-- `RATE_LIMIT_MAX_RETRIES` in `backoff.py`. -/
def RATE_LIMIT_MAX_RETRIES : Nat := 5

/-- `RATE_LIMIT_INITIAL_DELAY` in `backoff.py`. -/
def RATE_LIMIT_INITIAL_DELAY : ℚ := 3 / 2

/-- `RATE_LIMIT_BACKOFF_MULTIPLIER` in `backoff.py`. -/
def RATE_LIMIT_BACKOFF_MULTIPLIER : ℚ := 2

/-- `RATE_LIMIT_JITTER` in `backoff.py`. -/
def RATE_LIMIT_JITTER : ℚ := 1 / 2

/-- The `while True` loop of `run_with_backoff`.  `step a` is the outcome of
`Runner.run` on attempt `a` (1-based), `rand a` the value drawn by
`random.random()` after attempt `a` fails.  Delay arithmetic is modelled
over `ℚ`; the values involved (`1.5·2^n` plus a halved random) make the
compared bounds exact.  `fuel` only bounds the recursion: the loop runs
at most `maxRetries` attempts, so from the entry point
(`fuel = maxRetries`, `attempt = 0`) the `fuel = 0` branch is
unreachable.  Returns the list of sleeps performed and the result. -/
def runWithBackoffGo (step : Nat → Except AgentError Nat) (rand : Nat → ℚ)
    (maxRetries : Nat) :
    Nat → ℚ → Nat → List ℚ × Except AgentError Nat
  | attempt, delay, fuel =>
    let a := attempt + 1
    match step a with
    | .ok v => ([], .ok v)
    | .error e =>
      match e with
      | .rateLimited i =>
        if maxRetries ≤ a then ([], .error (.rateLimited i))
        else
          match fuel with
          | 0 => ([], .error (.rateLimited i))
          | fuel + 1 =>
            let snooze := delay + rand a * RATE_LIMIT_JITTER
            let rest := runWithBackoffGo step rand maxRetries a
              (delay * RATE_LIMIT_BACKOFF_MULTIPLIER) fuel
            (snooze :: rest.1, rest.2)
      | .maxTurnsExceeded i => ([], .error (.maxTurnsExceeded i))
      | .other i => ([], .error (.other i))

/-- `backoff.run_with_backoff` (and the identical
`pipeline._run_agent_with_backoff`): retry only on `RateLimitError`, with
exponential backoff and jitter, re-raising once `attempt >= max_retries`;
every other exception propagates at once. -/
def run_with_backoff (step : Nat → Except AgentError Nat) (rand : Nat → ℚ)
    (maxRetries : Nat := RATE_LIMIT_MAX_RETRIES) :
    List ℚ × Except AgentError Nat :=
  runWithBackoffGo step rand maxRetries 0 RATE_LIMIT_INITIAL_DELAY maxRetries

/- ### Test execution adapter (`workflow/testing.py`) -/

/-- Outcome of the `asyncio.create_subprocess_exec` boundary in
`run_pytest`: either the command is missing (`FileNotFoundError`, whose
text is `excMsg`) or the process runs to completion with a return code
and combined decoded output. -/
inductive PytestLaunch where
  | notFound (excMsg : String)
  | completed (returncode : Int) (stdout : String)
deriving DecidableEq

/-- `workflow.testing.run_pytest` (and the identical
`pipeline._run_pytest`): never raises; a missing command degrades to an
absent exit code with an explanatory message. -/
def run_pytest (launch : PytestLaunch) : TestRunResult :=
  match launch with
  | .notFound exc =>
    { command := some "pytest -q"
      exit_code := none
      output := some ("pytest command not found: " ++ exc) }
  | .completed rc out =>
    { command := some "pytest -q"
      exit_code := some rc
      output := some out }

/-- Python's `a or b` for an optional string: `b` when `a` is absent or
empty (falsy). -/
def pyOr (o : Option String) (dflt : String) : String :=
  match o with
  | some s => if s = "" then dflt else s
  | none => dflt

/-- `workflow.testing.format_test_summary` (and the identical
`pipeline._format_test_summary`). -/
def format_test_summary (result : TestRunResult) : String :=
  let command := pyOr result.command "pytest"
  let output := pyStrip (pyOr result.output "<no output>")
  match result.exit_code with
  | none =>
    "Command: " ++ command ++
    "\nStatus: not run (missing command or error before execution)" ++
    "\nOutput:\n" ++ output
  | some c =>
    let status := if c = 0 then "PASS" else "FAIL"
    "Command: " ++ command ++
    "\nExit code: " ++ toString c ++ " (" ++ status ++ ")" ++
    "\nOutput:\n" ++ output

/- ### QA output coercion and formatters (`workflow/qa.py`, `pipeline.py`) -/

/-- A reviewer's final output at the agent boundary: either an already
structured `QAReview` object or free text (spec §9's tagged union for
the source's duck-typed handling). -/
inductive QAOut where
  | structured (r : QAReview)
  | raw (s : String)
deriving DecidableEq

/-- Python `str()` applied to a reviewer output.  For free text this is
the text itself; for a pydantic `QAReview` object it is its field
rendering (this branch is unreachable in the pipeline, which only
stringifies outputs that failed to coerce to a `QAReview`). -/
def strOfQAOut : QAOut → String
  | .raw s => s
  | .structured r =>
    "status='" ++ statusStr r.status ++ "' summary='" ++ r.summary ++
    "' issues=" ++ toString r.issues

/-- `workflow.qa.coerce_review` / `pipeline._coerce_qa_review`, with the
pydantic `QAReview.model_validate_json` boundary passed in as `parse`:
a structured object is returned as is; a string is stripped, an empty
string yields no review, and otherwise the JSON parse decides. -/
def coerce_review (parse : String → Option QAReview) (output : QAOut) :
    Option QAReview :=
  match output with
  | .structured r => some r
  | .raw s =>
    let t := pyStrip s
    if t = "" then none else parse t

/-- `workflow.qa.format_summary` / `pipeline._format_qa_summary`. -/
def format_summary (review : Option QAReview) (raw_output : QAOut) : String :=
  match review with
  | none => strOfQAOut raw_output
  | some r =>
    let issues_text := pyJoin "\n- " r.issues
    let issues_block :=
      if r.issues.isEmpty then "" else "\nIssues:\n- " ++ issues_text
    "Status: " ++ statusStr r.status ++ "\nSummary: " ++ r.summary ++
      issues_block

/-- `workflow.qa.planner_feedback` / `pipeline._planner_feedback_from_qa`. -/
def planner_feedback (review : Option QAReview) (raw_output : QAOut) :
    String :=
  match review with
  | none => strOfQAOut raw_output
  | some r =>
    if r.issues.isEmpty then
      "QA Summary: " ++ r.summary ++ "\nStatus: " ++ statusStr r.status
    else
      let bullet_list :=
        pyJoin "\n" (r.issues.map (fun issue => "- " ++ issue))
      "QA Summary: " ++ r.summary ++ "\nStatus: " ++ statusStr r.status ++
        "\nOutstanding issues:\n" ++ bullet_list

/- ### Configuration (`config._resolve_iterations`) -/

/-- `config._resolve_iterations`, with Python's `int(...)` passed in as
`parseInt`: a CLI value wins and must be at least 1; otherwise a
non-empty `AGENTIC_SWARM_MAX_ITERATIONS` value is parsed and must be at
least 1; otherwise the default is 5. -/
def resolve_iterations (parseInt : String → Option Int) (cliValue : Option Int)
    (envValue : Option String) : Except String Int :=
  match cliValue with
  | some v =>
    if v < 1 then .error "Iterations must be at least 1." else .ok v
  | none =>
    match envValue with
    | some s =>
      if s = "" then .ok 5
      else
        match parseInt s with
        | none =>
          .error ("Invalid AGENTIC_SWARM_MAX_ITERATIONS value: '" ++ s ++ "'")
        | some v =>
          if v < 1 then .error "Iterations must be at least 1." else .ok v
    | none => .ok 5

/- ### Workflow controller (`pipeline.execute_workflow`) -/

/-- Per-step outcome of `_run_agent_with_backoff` as observed by the
controller: a final output, a `MaxTurnsExceeded` escape, or any other
exception (for example an unrecovered `RateLimitError`), which
`execute_workflow` does not catch. -/
inductive AgentResp (α : Type) where
  | ok (out : α)
  | maxTurns
  | fatal

/-- The behaviour of the external collaborators during one run, indexed
by 1-based iteration number.  The planner additionally sees the feedback
threaded from the previous iteration. -/
structure WorkflowEnv where
  planner : Nat → Option String → AgentResp String
  coder : Nat → AgentResp String
  pytest : Nat → PytestLaunch
  reviewer : Nat → AgentResp QAOut

/-- `workflow.types.build_iteration_result` /
`pipeline._build_iteration_result`. -/
def build_iteration_result (plan_summary coder_summary qa_summary : String)
    (qa_review : Option QAReview) (test_result : TestRunResult) :
    IterationResult :=
  { plan_summary := plan_summary
    coder_summary := coder_summary
    qa_summary := qa_summary
    qa_review := qa_review
    test_command := test_result.command
    test_exit_code := test_result.exit_code
    test_output := test_result.output }

/-- The synthetic record appended when the planner exceeds max turns. -/
def plannerAbortResult : IterationResult :=
  ⟨"Planner exceeded max turns", "", "", none, none, none, none⟩

/-- The partial record appended when the coder exceeds max turns. -/
def coderAbortResult (planOut : String) : IterationResult :=
  ⟨planOut, "Coder exceeded max turns", "", none, none, none, none⟩

/-- The partial record appended when the reviewer exceeds max turns. -/
def qaAbortResult (planOut coderOut : String) (t : TestRunResult) :
    IterationResult :=
  build_iteration_result planOut coderOut "QA exceeded max turns" none t

/-- The `for iteration_index in range(1, max_iterations + 1)` loop of
`execute_workflow`, returning the iteration records produced from
iteration `i` on and the success flag.  `fuel` is the number of loop
passes still allowed; an uncaught exception is `Except.error ()`. -/
def iterLoop (env : WorkflowEnv) (parse : String → Option QAReview) :
    Nat → Nat → Option String → Except Unit (List IterationResult × Bool)
  | _, 0, _ => .ok ([], false)
  | i, fuel + 1, feedback =>
    match env.planner i feedback with
    | .fatal => .error ()
    | .maxTurns => .ok ([plannerAbortResult], false)
    | .ok planOut =>
      match env.coder i with
      | .fatal => .error ()
      | .maxTurns => .ok ([coderAbortResult planOut], false)
      | .ok coderOut =>
        let test_result := run_pytest (env.pytest i)
        match env.reviewer i with
        | .fatal => .error ()
        | .maxTurns => .ok ([qaAbortResult planOut coderOut test_result], false)
        | .ok qaOut =>
          let review := coerce_review parse qaOut
          let qaSummary := format_summary review qaOut
          let it := build_iteration_result planOut coderOut qaSummary review
            test_result
          let status := pipeline_qa_passed review (strOfQAOut qaOut)
          if status = some true then .ok ([it], true)
          else
            let fb := planner_feedback review qaOut
            match iterLoop env parse (i + 1) fuel (some fb) with
            | .error () => .error ()
            | .ok (rest, succ) => .ok (it :: rest, succ)

/-- `pipeline.execute_workflow`.  The loop bound is the hardcoded
`max_iterations = 3` of `pipeline.py` line 311; `settings` contributes
only the goal and workspace, which the environment abstraction already
absorbs.  The parameter is kept so the relation between the result and
`settings.max_iterations` can be stated. -/
def execute_workflow (env : WorkflowEnv) (parse : String → Option QAReview)
    (_settings : RuntimeSettings) : Except Unit WorkflowResult :=
  match iterLoop env parse 1 3 none with
  | .error () => .error ()
  | .ok (its, succ) => .ok ⟨its, succ⟩

/-- The pass/fail decision carried by a stored `IterationResult`: its
structured review decides by status; otherwise its `qa_summary`, which
for an unparsed review is exactly the raw reviewer text, is scanned. -/
def iterationDecision (it : IterationResult) : Option Bool :=
  qa_passed it.qa_review it.qa_summary

/- ### Concrete runs used as counterexamples and witnesses -/

/-- A pydantic parse that accepts nothing (reviewer output stays raw). -/
def parseNone : String → Option QAReview := fun _ => none

/-- Settings whose iteration budget is 1. -/
def settingsOneIteration : RuntimeSettings := ⟨"add function", "/tmp/ws", 1⟩

/-- A run in which every step succeeds and the reviewer always returns a
structured FAIL review. -/
def envAlwaysFail : WorkflowEnv :=
  ⟨fun _ _ => .ok "plan", fun _ => .ok "applied",
   fun _ => .completed 0 "1 passed", fun _ => .ok (.structured ⟨.FAIL, "not done", []⟩)⟩

/-- A run in which the reviewer declares PASS in raw text on iteration 1. -/
def envPassFirst : WorkflowEnv :=
  ⟨fun _ _ => .ok "plan", fun _ => .ok "applied",
   fun _ => .completed 0 "1 passed",
   fun _ => .ok (.raw "All good.\nOVERALL_STATUS: PASS")⟩

/-- A run whose first iteration fails QA normally and whose second planner
invocation exceeds its turn limit. -/
def envPlannerDiesSecond : WorkflowEnv :=
  ⟨fun i _ => if i = 1 then .ok "plan A" else .maxTurns,
   fun _ => .ok "edited", fun _ => .completed 1 "1 failed",
   fun _ => .ok (.structured ⟨.FAIL, "tests failing", ["fix the test"]⟩)⟩

/-- The iteration record produced by the first iteration of
`envPlannerDiesSecond`. -/
def demoIteration1 : IterationResult :=
  ⟨"plan A", "edited",
   "Status: FAIL\nSummary: tests failing\nIssues:\n- fix the test",
   some ⟨.FAIL, "tests failing", ["fix the test"]⟩,
   some "pytest -q", some 1, some "1 failed"⟩

/-- An agent capability that hits the rate limit on every attempt; the
payload identifies the attempt that raised. -/
def stepAllRL : Nat → Except AgentError Nat := fun a => .error (.rateLimited a)

/- ### Helper lemmas -/

/-- A backward scan skips a block of non-matching lines. -/
lemma scanStatus_append_of_none (a b : List String)
    (h : ∀ l ∈ a, matchOverallStatus l = none) :
    scanStatus (a ++ b) = scanStatus b := by
  induction a with
  | nil => rfl
  | cons x xs ih =>
    have hx := h x (by simp)
    simp only [List.cons_append, scanStatus, hx]
    exact ih (fun l hl => h l (by simp [hl]))

/-- A scan over lines none of which match yields no decision. -/
lemma scanStatus_eq_none (a : List String)
    (h : ∀ l ∈ a, matchOverallStatus l = none) :
    scanStatus a = none := by
  induction a with
  | nil => rfl
  | cons x xs ih =>
    have hx := h x (by simp)
    simp only [scanStatus, hx]
    exact ih (fun l hl => h l (by simp [hl]))

/-- Every joined, mapped element occurs inside the join. -/
lemma pyJoin_map_mem (sep : String) (f : String → String) :
    ∀ (l : List String) (x : String), x ∈ l →
      ∃ a b, pyJoin sep (l.map f) = a ++ f x ++ b := by
  intro l
  induction l with
  | nil => intro x hx; exact absurd hx (List.not_mem_nil x)
  | cons y ys ih =>
    intro x hx
    cases ys with
    | nil =>
      have hxy : x = y := by simpa using hx
      subst hxy
      exact ⟨"", "", by simp [pyJoin]⟩
    | cons z zs =>
      have hsplit : pyJoin sep ((y :: z :: zs).map f) =
          f y ++ sep ++ pyJoin sep ((z :: zs).map f) := by
        simp [pyJoin]
      rcases List.mem_cons.mp hx with hxy | hmem
      · subst hxy
        exact ⟨"", sep ++ pyJoin sep ((z :: zs).map f), by
          rw [hsplit]; simp [String.append_assoc]⟩
      · obtain ⟨a, b, hab⟩ := ih x hmem
        exact ⟨f y ++ sep ++ a, b, by
          rw [hsplit, hab]; simp [String.append_assoc]⟩

/-- A list splits into its matching run and its `dropWhile` remainder. -/
lemma dropWhile_decomp (p : Char → Bool) (l : List Char) :
    ∃ t, l = t ++ l.dropWhile p ∧ ∀ c ∈ t, p c = true :=
  ⟨l.takeWhile p, (List.takeWhile_append_dropWhile p l).symm,
   fun _ hc => List.mem_takeWhile_imp hc⟩

/-- A successful caseless literal match decomposes its input. -/
lemma stripCaseless_decomp :
    ∀ (pat l rest : List Char), stripCaseless pat l = some rest →
      ∃ pre, l = pre ++ rest ∧ pre.map Char.toLower = pat := by
  intro pat
  induction pat with
  | nil =>
    intro l rest h
    simp only [stripCaseless, Option.some.injEq] at h
    exact ⟨[], by simp [h], rfl⟩
  | cons p ps ih =>
    intro l rest h
    cases l with
    | nil => simp [stripCaseless] at h
    | cons c cs =>
      simp only [stripCaseless] at h
      by_cases hc : Char.toLower c = p
      · rw [if_pos hc] at h
        obtain ⟨pre, hpre, hmap⟩ := ih cs rest h
        exact ⟨c :: pre, by simp [hpre], by simp [hmap, hc]⟩
      · rw [if_neg hc] at h
        exact absurd h (by simp)

/- ### Claim theorems -/

/-- C9: the QA pass/fail resolver defined in the pipeline module and the
one defined in the workflow.qa module are extensionally equal: for every
structured-review option and raw output text they return the same
decision. -/
theorem pipeline_and_workflow_resolvers_agree :
    ∀ (review : Option QAReview) (out : String),
      pipeline_qa_passed review out = qa_passed review out :=
  fun _ _ => rfl

/-- C3: with no structured review, the resolver scans the stripped
output's lines from the last line backward and returns the decision of
the first matching line (so a FAIL line followed later by a PASS line
resolves to PASS), and an output with no matching line resolves to no
decision at all. -/
theorem qa_fallback_last_status_line_wins :
    (∀ (out : String) (ls₁ : List String) (l : String) (ls₂ : List String),
      pySplitlines (pyStrip out) = ls₁ ++ l :: ls₂ →
      (matchOverallStatus l).isSome = true →
      (∀ l₂ ∈ ls₂, matchOverallStatus l₂ = none) →
      qa_passed none out = matchOverallStatus l) ∧
    (∀ out : String,
      (∀ l ∈ pySplitlines (pyStrip out), matchOverallStatus l = none) →
      qa_passed none out = none) ∧
    qa_passed none "OVERALL_STATUS: FAIL\nstill broken\nOVERALL_STATUS: PASS" =
      some true := by
  refine ⟨?_, ?_, by decide⟩
  · intro out ls₁ l ls₂ hsplit hsome hnone
    show scanStatus (pySplitlines (pyStrip out)).reverse = matchOverallStatus l
    rw [hsplit, List.reverse_append, List.reverse_cons, List.append_assoc]
    rw [scanStatus_append_of_none ls₂.reverse _
      (fun l₂ hl₂ => hnone l₂ (List.mem_reverse.mp hl₂))]
    cases hm : matchOverallStatus l with
    | none => rw [hm] at hsome; simp at hsome
    | some d => simp [scanStatus, hm]
  · intro out h
    show scanStatus (pySplitlines (pyStrip out)).reverse = none
    exact scanStatus_eq_none _ (fun l hl => h l (List.mem_reverse.mp hl))

/-- Witness for C3: in an output whose FAIL line precedes its PASS line,
the backward scan returns the decision of the final PASS line. -/
theorem qa_fallback_last_status_line_wins_witness :
    qa_passed none "x\nOVERALL_STATUS: FAIL\nOVERALL_STATUS: PASS" =
      matchOverallStatus "OVERALL_STATUS: PASS" :=
  qa_fallback_last_status_line_wins.1
    "x\nOVERALL_STATUS: FAIL\nOVERALL_STATUS: PASS"
    ["x", "OVERALL_STATUS: FAIL"] "OVERALL_STATUS: PASS" []
    (by decide) (by decide) (by simp)

/-- C8: for a structured FAIL review with a non-empty summary and
non-empty issues, the planner feedback contains the summary and each
issue as a bulleted item, e.g. the line `- missing tests`. -/
theorem planner_feedback_contains_summary_and_issues :
    (∀ (r : QAReview) (raw : QAOut), r.status = .FAIL → r.summary ≠ "" →
      r.issues ≠ [] →
      (∃ a b, planner_feedback (some r) raw = a ++ r.summary ++ b) ∧
      (∀ issue ∈ r.issues, ∃ a b,
        planner_feedback (some r) raw = a ++ ("- " ++ issue) ++ b)) ∧
    (∀ raw : QAOut, "- missing tests" ∈ pySplitlines
      (planner_feedback
        (some ⟨.FAIL, "Coverage gaps remain", ["missing tests"]⟩) raw)) := by
  constructor
  · intro r raw _ _ hissues
    have hne : r.issues.isEmpty = false := by
      cases hi : r.issues with
      | nil => exact absurd hi hissues
      | cons a l => simp
    have hfb : planner_feedback (some r) raw =
        "QA Summary: " ++ r.summary ++ "\nStatus: " ++ statusStr r.status ++
        "\nOutstanding issues:\n" ++
        pyJoin "\n" (r.issues.map (fun issue => "- " ++ issue)) := by
      simp [planner_feedback, hne]
    constructor
    · refine ⟨"QA Summary: ", "\nStatus: " ++ statusStr r.status ++
        "\nOutstanding issues:\n" ++
        pyJoin "\n" (r.issues.map (fun issue => "- " ++ issue)), ?_⟩
      rw [hfb]; simp [String.append_assoc]
    · intro issue hissue
      obtain ⟨a, b, hab⟩ :=
        pyJoin_map_mem "\n" (fun issue => "- " ++ issue) r.issues issue hissue
      refine ⟨"QA Summary: " ++ r.summary ++ "\nStatus: " ++
        statusStr r.status ++ "\nOutstanding issues:\n" ++ a, b, ?_⟩
      rw [hfb, hab]; simp [String.append_assoc]
  · intro raw
    exact (by decide :
      "- missing tests" ∈ pySplitlines
        ("QA Summary: Coverage gaps remain\nStatus: FAIL\nOutstanding issues:\n- missing tests"))

/-- `dropWs` splits off a run of whitespace. -/
lemma dropWs_decomp (l : List Char) :
    ∃ t, l = t ++ dropWs l ∧ ∀ c ∈ t, isPySpace c = true :=
  dropWhile_decomp isPySpace l

/-- `dropStars` splits off a run of asterisks. -/
lemma dropStars_decomp (l : List Char) :
    ∃ t, l = t ++ dropStars l ∧ ∀ c ∈ t, c = '*' := by
  obtain ⟨t, ht, hall⟩ := dropWhile_decomp (· == '*') l
  exact ⟨t, ht, fun c hc => by simpa using hall c hc⟩

/-- C10: a line is accepted by the status pattern only if it consists
entirely of optional whitespace and emphasis asterisks around
`OVERALL_STATUS:` and a PASS/FAIL word (case-insensitively); lines with
any other surrounding text never match, so an output whose only status
mentions are embedded in prose resolves to no decision. -/
theorem status_pattern_requires_entire_line :
    (∀ (line : String) (d : Bool), matchOverallStatus line = some d →
      ∃ w1 s1 w2 core sp word w3 s2 w4,
        line.data =
          w1 ++ (s1 ++ (w2 ++ (core ++ (sp ++ (word ++ (w3 ++ (s2 ++ w4))))))) ∧
        (∀ c ∈ w1, isPySpace c = true) ∧ (∀ c ∈ s1, c = '*') ∧
        (∀ c ∈ w2, isPySpace c = true) ∧
        core.map Char.toLower = "overall_status:".data ∧
        (∀ c ∈ sp, isPySpace c = true) ∧
        word.map Char.toLower = (if d then "pass" else "fail").data ∧
        (∀ c ∈ w3, isPySpace c = true) ∧ (∀ c ∈ s2, c = '*') ∧
        (∀ c ∈ w4, isPySpace c = true)) ∧
    matchOverallStatus "Final OVERALL_STATUS: PASS" = none ∧
    matchOverallStatus "OVERALL_STATUS: PASS - done" = none ∧
    qa_passed none "Final OVERALL_STATUS: PASS\nOVERALL_STATUS: PASS - done" =
      none := by
  refine ⟨?_, by decide, by decide, by decide⟩
  intro line d h
  obtain ⟨w1, e1, hw1⟩ := dropWs_decomp line.data
  obtain ⟨s1, e2, hs1⟩ := dropStars_decomp (dropWs line.data)
  obtain ⟨w2, e3, hw2⟩ := dropWs_decomp (dropStars (dropWs line.data))
  unfold matchOverallStatus at h
  cases h0 : stripCaseless "overall_status:".data
      (dropWs (dropStars (dropWs line.data))) with
  | none => rw [h0] at h; simp at h
  | some l1 =>
    rw [h0] at h
    dsimp only at h
    obtain ⟨core, ecore, hcore⟩ := stripCaseless_decomp _ _ _ h0
    obtain ⟨sp, esp, hsp⟩ := dropWs_decomp l1
    cases h2 : stripCaseless "pass".data (dropWs l1) with
    | some l3 =>
      rw [h2] at h
      dsimp only at h
      by_cases ht : tailMatches l3 = true
      · rw [if_pos ht] at h
        have hd : d = true := by
          have := h; simp only [Option.some.injEq] at this; exact this.symm
        subst hd
        obtain ⟨word, eword, hword⟩ := stripCaseless_decomp _ _ _ h2
        have htl : dropWs (dropStars (dropWs l3)) = [] := by
          have h' := ht
          unfold tailMatches at h'
          simpa using h'
        obtain ⟨w3, e4, hw3⟩ := dropWs_decomp l3
        obtain ⟨s2, e5, hs2⟩ := dropStars_decomp (dropWs l3)
        obtain ⟨w4, e6, hw4⟩ := dropWs_decomp (dropStars (dropWs l3))
        refine ⟨w1, s1, w2, core, sp, word, w3, s2, w4, ?_, hw1, hs1, hw2,
          hcore, hsp, by simpa using hword, hw3, hs2, hw4⟩
        rw [e1, e2, e3, ecore, esp, eword, e4, e5, e6, htl]
        simp
      · rw [if_neg ht] at h; simp at h
    | none =>
      rw [h2] at h
      dsimp only at h
      cases h3 : stripCaseless "fail".data (dropWs l1) with
      | none => rw [h3] at h; simp at h
      | some l3 =>
        rw [h3] at h
        dsimp only at h
        by_cases ht : tailMatches l3 = true
        · rw [if_pos ht] at h
          have hd : d = false := by
            have := h; simp only [Option.some.injEq] at this; exact this.symm
          subst hd
          obtain ⟨word, eword, hword⟩ := stripCaseless_decomp _ _ _ h3
          have htl : dropWs (dropStars (dropWs l3)) = [] := by
            have h' := ht
            unfold tailMatches at h'
            simpa using h'
          obtain ⟨w3, e4, hw3⟩ := dropWs_decomp l3
          obtain ⟨s2, e5, hs2⟩ := dropStars_decomp (dropWs l3)
          obtain ⟨w4, e6, hw4⟩ := dropWs_decomp (dropStars (dropWs l3))
          refine ⟨w1, s1, w2, core, sp, word, w3, s2, w4, ?_, hw1, hs1, hw2,
            hcore, hsp, by simpa using hword, hw3, hs2, hw4⟩
          rw [e1, e2, e3, ecore, esp, eword, e4, e5, e6, htl]
          simp
        · rw [if_neg ht] at h; simp at h

/-- Witness for C10: the line `OVERALL_STATUS: PASS` matches the pattern
and decomposes into whitespace, emphasis, keyword, and status word. -/
theorem status_pattern_requires_entire_line_witness :
    ∃ w1 s1 w2 core sp word w3 s2 w4,
      ("OVERALL_STATUS: PASS").data =
        w1 ++ (s1 ++ (w2 ++ (core ++ (sp ++ (word ++ (w3 ++ (s2 ++ w4))))))) ∧
      (∀ c ∈ w1, isPySpace c = true) ∧ (∀ c ∈ s1, c = '*') ∧
      (∀ c ∈ w2, isPySpace c = true) ∧
      core.map Char.toLower = "overall_status:".data ∧
      (∀ c ∈ sp, isPySpace c = true) ∧
      word.map Char.toLower = (if true then "pass" else "fail").data ∧
      (∀ c ∈ w3, isPySpace c = true) ∧ (∀ c ∈ s2, c = '*') ∧
      (∀ c ∈ w4, isPySpace c = true) :=
  status_pattern_requires_entire_line.1 "OVERALL_STATUS: PASS" true (by decide)

/-- Witness for C8: the concrete FAIL review with one issue yields
feedback containing its summary. -/
theorem planner_feedback_contains_summary_and_issues_witness :
    ∃ a b, planner_feedback
        (some ⟨.FAIL, "Coverage gaps remain", ["missing tests"]⟩) (.raw "") =
      a ++ "Coverage gaps remain" ++ b :=
  (planner_feedback_contains_summary_and_issues.1
    ⟨.FAIL, "Coverage gaps remain", ["missing tests"]⟩ (.raw "")
    rfl (by decide) (by decide)).1

/-- If the gateway loop ends by re-raising a rate-limit error, every
attempt within the budget was rate-limited, the raised error is the one
from the final attempt, and one sleep preceded each attempt but the
first. -/
lemma backoffGo_rateLimited_exhausts (step : Nat → Except AgentError Nat)
    (rand : Nat → ℚ) (maxRetries : Nat) :
    ∀ (fuel attempt : Nat) (delay : ℚ) (sleeps : List ℚ) (e : Nat),
      maxRetries = attempt + fuel → 1 ≤ fuel →
      runWithBackoffGo step rand maxRetries attempt delay fuel =
        (sleeps, .error (.rateLimited e)) →
      (∀ k, attempt + 1 ≤ k → k ≤ maxRetries →
        ∃ i, step k = .error (.rateLimited i)) ∧
      step maxRetries = .error (.rateLimited e) ∧
      sleeps.length = fuel - 1 := by
  intro fuel
  induction fuel with
  | zero => intro attempt delay sleeps e _ hf; exact absurd hf (by omega)
  | succ f ih =>
    intro attempt delay sleeps e hmr _ hrun
    rw [runWithBackoffGo.eq_def] at hrun
    dsimp only at hrun
    cases hstep : step (attempt + 1) with
    | ok v => rw [hstep] at hrun; simp at hrun
    | error err =>
      rw [hstep] at hrun
      cases err with
      | maxTurnsExceeded i => simp at hrun
      | other i => simp at hrun
      | rateLimited i =>
        dsimp only at hrun
        by_cases hle : maxRetries ≤ attempt + 1
        · rw [if_pos hle] at hrun
          have heq : attempt + 1 = maxRetries := by omega
          have hie : i = e ∧ sleeps = [] := by
            simpa [eq_comm, and_comm] using hrun
          refine ⟨?_, ?_, ?_⟩
          · intro k hk1 hk2
            have : k = attempt + 1 := by omega
            exact ⟨i, this ▸ hstep⟩
          · rw [← heq, hstep, hie.1]
          · rw [hie.2]; simp; omega
        · rw [if_neg hle] at hrun
          have hf1 : 1 ≤ f := by omega
          have hsl : sleeps =
              (delay + rand (attempt + 1) * RATE_LIMIT_JITTER) ::
                (runWithBackoffGo step rand maxRetries (attempt + 1)
                  (delay * RATE_LIMIT_BACKOFF_MULTIPLIER) f).1 ∧
              (runWithBackoffGo step rand maxRetries (attempt + 1)
                  (delay * RATE_LIMIT_BACKOFF_MULTIPLIER) f).2 =
                .error (.rateLimited e) := by
            constructor
            · exact (congrArg Prod.fst hrun).symm
            · exact congrArg Prod.snd hrun
          have hrec : runWithBackoffGo step rand maxRetries (attempt + 1)
              (delay * RATE_LIMIT_BACKOFF_MULTIPLIER) f =
              ((runWithBackoffGo step rand maxRetries (attempt + 1)
                (delay * RATE_LIMIT_BACKOFF_MULTIPLIER) f).1,
               .error (.rateLimited e)) := by
            rw [← hsl.2]
          obtain ⟨hall, hlast, hlen⟩ := ih (attempt + 1)
            (delay * RATE_LIMIT_BACKOFF_MULTIPLIER)
            (runWithBackoffGo step rand maxRetries (attempt + 1)
              (delay * RATE_LIMIT_BACKOFF_MULTIPLIER) f).1 e
            (by omega) hf1 hrec
          refine ⟨?_, hlast, ?_⟩
          · intro k hk1 hk2
            rcases Nat.lt_or_ge k (attempt + 2) with hk | hk
            · have : k = attempt + 1 := by omega
              exact ⟨i, this ▸ hstep⟩
            · exact hall k (by omega) hk2
          · rw [hsl.1]; simp [hlen]; omega

/-- C5: the retrying gateway retries only on the rate-limit failure: any
other failure (including turn-limit exceeded) propagates immediately on
the first attempt with no sleep, and a rate-limit failure reaches the
caller only when every attempt in the budget was rate-limited — the
raised error being the one of the final attempt. -/
theorem gateway_retries_only_rate_limit :
    (∀ (step : Nat → Except AgentError Nat) (rand : Nat → ℚ)
        (maxRetries e : Nat),
      step 1 = .error (.maxTurnsExceeded e) →
      run_with_backoff step rand maxRetries =
        ([], .error (.maxTurnsExceeded e))) ∧
    (∀ (step : Nat → Except AgentError Nat) (rand : Nat → ℚ)
        (maxRetries e : Nat),
      step 1 = .error (.other e) →
      run_with_backoff step rand maxRetries = ([], .error (.other e))) ∧
    (∀ (step : Nat → Except AgentError Nat) (rand : Nat → ℚ)
        (maxRetries : Nat) (sleeps : List ℚ) (e : Nat),
      1 ≤ maxRetries →
      run_with_backoff step rand maxRetries =
        (sleeps, .error (.rateLimited e)) →
      (∀ k, 1 ≤ k → k ≤ maxRetries → ∃ i, step k = .error (.rateLimited i)) ∧
      step maxRetries = .error (.rateLimited e) ∧
      sleeps.length = maxRetries - 1) := by
  refine ⟨?_, ?_, ?_⟩
  · intro step rand maxRetries e hstep
    simp [run_with_backoff, runWithBackoffGo, hstep]
  · intro step rand maxRetries e hstep
    simp [run_with_backoff, runWithBackoffGo, hstep]
  · intro step rand maxRetries sleeps e hmr hrun
    have := backoffGo_rateLimited_exhausts step rand maxRetries maxRetries 0
      RATE_LIMIT_INITIAL_DELAY sleeps e (by omega) hmr hrun
    exact ⟨fun k hk1 hk2 => this.1 k (by omega) hk2, this.2.1, this.2.2⟩

/-- Witness for C5: a capability that dies with turn-limit exceeded on
attempt 1 propagates immediately with no sleeps. -/
theorem gateway_retries_only_rate_limit_witness :
    run_with_backoff (fun _ => .error (.maxTurnsExceeded 7)) (fun _ => 0) 5 =
      ([], .error (.maxTurnsExceeded 7)) :=
  gateway_retries_only_rate_limit.1 (fun _ => .error (.maxTurnsExceeded 7))
    (fun _ => 0) 5 7 rfl

/-- Counterexample for C4: with zero jitter the delay slept before
attempt 2 is 1.5, not within the claimed interval
`[1.5·2^(2-1), 1.5·2^(2-1) + 0.5] = [3, 3.5]`. -/
theorem backoff_claimed_interval_is_off_by_one :
    (run_with_backoff stepAllRL (fun _ => 0) 5).1.getD 0 0 = 3 / 2 ∧
    ¬ (3 / 2 * 2 ^ (2 - 1) ≤
        (run_with_backoff stepAllRL (fun _ => 0) 5).1.getD 0 0) := by
  have h : (run_with_backoff stepAllRL (fun _ => 0) 5).1 =
      [3 / 2, 3, 6, 12] := by
    norm_num [run_with_backoff, runWithBackoffGo, stepAllRL,
      RATE_LIMIT_INITIAL_DELAY, RATE_LIMIT_BACKOFF_MULTIPLIER,
      RATE_LIMIT_JITTER]
  rw [h]
  norm_num

/-- C4 (amended): with initial delay 1.5, multiplier 2.0, jitter bound
0.5 and a rate limit on every attempt, the delays slept before attempts
2..5 are strictly increasing, the delay before attempt k lies in
`[1.5·2^(k-2), 1.5·2^(k-2) + 0.5]`, and after the fifth failed attempt
the rate-limit error of that final attempt is raised to the caller. -/
theorem backoff_delays_match_amended_schedule (rand : Nat → ℚ)
    (h0 : ∀ n, 0 ≤ rand n) (h1 : ∀ n, rand n < 1) (sleeps : List ℚ)
    (res : Except AgentError Nat)
    (hrun : run_with_backoff stepAllRL rand 5 = (sleeps, res)) :
    sleeps = [3 / 2 + rand 1 * (1 / 2), 3 + rand 2 * (1 / 2),
      6 + rand 3 * (1 / 2), 12 + rand 4 * (1 / 2)] ∧
    List.Chain' (· < ·) sleeps ∧
    (∀ k, 2 ≤ k → k ≤ 5 →
      3 / 2 * 2 ^ (k - 2) ≤ sleeps.getD (k - 2) 0 ∧
      sleeps.getD (k - 2) 0 ≤ 3 / 2 * 2 ^ (k - 2) + 1 / 2) ∧
    res = .error (.rateLimited 5) := by
  have hcomp : run_with_backoff stepAllRL rand 5 =
      ([3 / 2 + rand 1 * (1 / 2), 3 + rand 2 * (1 / 2),
        6 + rand 3 * (1 / 2), 12 + rand 4 * (1 / 2)],
       .error (.rateLimited 5)) := by
    norm_num [run_with_backoff, runWithBackoffGo, stepAllRL,
      RATE_LIMIT_INITIAL_DELAY, RATE_LIMIT_BACKOFF_MULTIPLIER,
      RATE_LIMIT_JITTER]
  rw [hcomp] at hrun
  have hs : sleeps = [3 / 2 + rand 1 * (1 / 2), 3 + rand 2 * (1 / 2),
      6 + rand 3 * (1 / 2), 12 + rand 4 * (1 / 2)] :=
    (congrArg Prod.fst hrun).symm
  have hr : res = .error (.rateLimited 5) := (congrArg Prod.snd hrun).symm
  have jlo : ∀ n, 0 ≤ rand n * (1 / 2) := by
    intro n; have := h0 n; nlinarith
  have jhi : ∀ n, rand n * (1 / 2) ≤ 1 / 2 := by
    intro n; have := h1 n; nlinarith
  subst hs
  refine ⟨rfl, ?_, ?_, hr⟩
  · have := jlo 1; have := jhi 1; have := jlo 2; have := jhi 2
    have := jlo 3; have := jhi 3; have := jlo 4; have := jhi 4
    simp only [List.chain'_cons, List.chain'_singleton, and_true]
    refine ⟨by linarith, by linarith, by linarith⟩
  · intro k hk2 hk5
    have := jlo (k - 1); have := jhi (k - 1)
    interval_cases k <;>
      simp only [List.getD, List.get?, Option.getD] <;>
      constructor <;>
      · have := jlo 1; have := jhi 1; norm_num; linarith

/-- Witness for C4 (amended): with zero jitter the four delays are
strictly increasing. -/
theorem backoff_delays_match_amended_schedule_witness :
    List.Chain' (· < ·) ([3 / 2, 3, 6, 12] : List ℚ) := by
  have h := backoff_delays_match_amended_schedule (fun _ => 0)
    (fun _ => le_refl 0) (fun _ => by norm_num)
    [3 / 2, 3, 6, 12] (.error (.rateLimited 5))
    (by norm_num [run_with_backoff, runWithBackoffGo, stepAllRL,
      RATE_LIMIT_INITIAL_DELAY, RATE_LIMIT_BACKOFF_MULTIPLIER,
      RATE_LIMIT_JITTER])
  exact h.2.1

/-- Collapsing `\r\n` pairs leaves a boundary-free prefix and a fresh
newline untouched. -/
lemma collapseCRLF_append_nl (xs rest : List Char)
    (h : ∀ c ∈ xs, isLineBoundary c = false) :
    collapseCRLF (xs ++ '\n' :: rest) = xs ++ '\n' :: collapseCRLF rest := by
  induction xs with
  | nil =>
    cases rest with
    | nil => rfl
    | cons r rs => simp [collapseCRLF]
  | cons x xs' ih =>
    have hx : isLineBoundary x = false := h x (by simp)
    have hxr : ¬ x = '\r' := by
      intro hh; subst hh; simp [isLineBoundary] at hx
    have ih' := ih (fun c hc => h c (by simp [hc]))
    cases xs' with
    | nil => simpa [collapseCRLF, hxr] using ih'
    | cons y ys => simpa [collapseCRLF, hxr] using ih'

/-- Splitting a boundary-free prefix followed by a newline yields that
prefix as the next line. -/
lemma splitRaw_append_nl (xs rest acc : List Char)
    (h : ∀ c ∈ xs, isLineBoundary c = false) :
    splitRaw (xs ++ '\n' :: rest) acc =
      String.mk (acc.reverse ++ xs) :: splitRaw rest [] := by
  induction xs generalizing acc with
  | nil => simp [splitRaw, isLineBoundary]
  | cons x xs' ih =>
    have hx : isLineBoundary x = false := h x (by simp)
    have hih := ih (x :: acc) (fun c hc => h c (by simp [hc]))
    simp only [List.cons_append, splitRaw, hx, Bool.false_eq_true, if_false]
    simpa [List.append_assoc] using hih

/-- `pySplitlines` peels off a boundary-free first line. -/
lemma pySplitlines_cons_line (a b : String)
    (h : ∀ c ∈ a.data, isLineBoundary c = false) :
    pySplitlines (a ++ "\n" ++ b) = a :: pySplitlines b := by
  obtain ⟨la⟩ := a
  unfold pySplitlines
  have hdata0 : (String.mk la ++ "\n" ++ b).data = (la ++ ['\n']) ++ b.data :=
    rfl
  have hdata : (String.mk la ++ "\n" ++ b).data = la ++ '\n' :: b.data := by
    rw [hdata0]; simp
  rw [hdata, collapseCRLF_append_nl _ _ h, splitRaw_append_nl _ _ _ h]
  simp

/-- C7: an unlaunchable test command is not fatal: the adapter returns an
absent exit code with a non-empty explanatory output, and the summary
formatter renders an absent exit code as status `not run` — never as
PASS or FAIL — while a present exit code renders PASS exactly when it is
zero and FAIL otherwise. -/
theorem test_adapter_degrades_and_renders :
    (∀ msg, run_pytest (.notFound msg) =
        ⟨some "pytest -q", none,
         some ("pytest command not found: " ++ msg)⟩ ∧
      ("pytest command not found: " ++ msg) ≠ "") ∧
    (∀ r : TestRunResult, r.exit_code = none →
      format_test_summary r =
        "Command: " ++ pyOr r.command "pytest" ++
        "\nStatus: not run (missing command or error before execution)" ++
        "\nOutput:\n" ++ pyStrip (pyOr r.output "<no output>")) ∧
    (∀ (r : TestRunResult) (c : Int), r.exit_code = some c →
      format_test_summary r =
        "Command: " ++ pyOr r.command "pytest" ++
        "\nExit code: " ++ toString c ++
        " (" ++ (if c = 0 then "PASS" else "FAIL") ++ ")" ++
        "\nOutput:\n" ++ pyStrip (pyOr r.output "<no output>")) ∧
    (∀ msg,
      (pySplitlines (format_test_summary (run_pytest (.notFound msg)))).getD
          1 "" =
        "Status: not run (missing command or error before execution)") ∧
    (∀ out,
      (pySplitlines
          (format_test_summary (run_pytest (.completed 0 out)))).getD 1 "" =
        "Exit code: 0 (PASS)" ∧
      (pySplitlines
          (format_test_summary (run_pytest (.completed 1 out)))).getD 1 "" =
        "Exit code: 1 (FAIL)") := by
  refine ⟨?_, ?_, ?_, ?_, ?_⟩
  · intro msg
    refine ⟨rfl, ?_⟩
    intro hcontra
    have hlen := congrArg String.length hcontra
    rw [String.length_append] at hlen
    have h26 : "pytest command not found: ".length = 26 := rfl
    rw [h26] at hlen
    simp at hlen
  · intro r h
    simp only [format_test_summary, h]
  · intro r c h
    simp only [format_test_summary, h]
  · intro msg
    have h1 : format_test_summary (run_pytest (.notFound msg)) =
        "Command: pytest -q" ++ "\n" ++
        ("Status: not run (missing command or error before execution)" ++
          "\n" ++
          ("Output:" ++ "\n" ++
            pyStrip ("pytest command not found: " ++ msg))) := rfl
    rw [h1, pySplitlines_cons_line _ _ (by decide),
      pySplitlines_cons_line _ _ (by decide)]
    rfl
  · intro out
    have h0 : format_test_summary (run_pytest (.completed 0 out)) =
        "Command: pytest -q" ++ "\n" ++
        ("Exit code: 0 (PASS)" ++ "\n" ++
          ("Output:" ++ "\n" ++ pyStrip (pyOr (some out) "<no output>"))) :=
      rfl
    have h1 : format_test_summary (run_pytest (.completed 1 out)) =
        "Command: pytest -q" ++ "\n" ++
        ("Exit code: 1 (FAIL)" ++ "\n" ++
          ("Output:" ++ "\n" ++ pyStrip (pyOr (some out) "<no output>"))) :=
      rfl
    constructor
    · rw [h0, pySplitlines_cons_line _ _ (by decide),
        pySplitlines_cons_line _ _ (by decide)]
      rfl
    · rw [h1, pySplitlines_cons_line _ _ (by decide),
        pySplitlines_cons_line _ _ (by decide)]
      rfl

/-- Witness for C7: a concrete missing-command launch renders its status
line as `not run`. -/
theorem test_adapter_degrades_and_renders_witness :
    (pySplitlines
        (format_test_summary (run_pytest (.notFound "[Errno 2]")))).getD 1 "" =
      "Status: not run (missing command or error before execution)" :=
  test_adapter_degrades_and_renders.2.2.2.1 "[Errno 2]"

/-- The stored decision of a freshly built normal iteration agrees with
the decision the controller computed from the raw reviewer output. -/
lemma stored_decision_eq_computed (parse : String → Option QAReview)
    (qaOut : QAOut) :
    qa_passed (coerce_review parse qaOut)
        (format_summary (coerce_review parse qaOut) qaOut) =
      pipeline_qa_passed (coerce_review parse qaOut) (strOfQAOut qaOut) := by
  cases h : coerce_review parse qaOut with
  | some r => rfl
  | none => simp [qa_passed, pipeline_qa_passed, format_summary]

/-- Success of the controller loop is equivalent to the last produced
iteration resolving to PASS; without success no produced last iteration
resolves to PASS. -/
lemma iterLoop_success_characterization (env : WorkflowEnv)
    (parse : String → Option QAReview) :
    ∀ (fuel i : Nat) (feedback : Option String)
      (rest : List IterationResult) (succ : Bool),
      iterLoop env parse i fuel feedback = .ok (rest, succ) →
      (succ = true → ∃ it, rest.getLast? = some it ∧
        iterationDecision it = some true) ∧
      (succ = false → ∀ it, rest.getLast? = some it →
        iterationDecision it ≠ some true) := by
  intro fuel
  induction fuel with
  | zero =>
    intro i feedback rest succ h
    simp only [iterLoop] at h
    have hr : rest = [] ∧ succ = false := by
      simpa [eq_comm] using h
    obtain ⟨hrest, hsucc⟩ := hr
    subst hrest; subst hsucc
    exact ⟨fun hcontra => by simp at hcontra, fun _ it hit => by simp at hit⟩
  | succ f ih =>
    intro i feedback rest succ h
    simp only [iterLoop] at h
    cases hp : env.planner i feedback with
    | fatal => rw [hp] at h; simp at h
    | maxTurns =>
      rw [hp] at h
      have hr : rest = [plannerAbortResult] ∧ succ = false := by
        simpa [eq_comm] using h
      obtain ⟨hrest, hsucc⟩ := hr
      subst hrest; subst hsucc
      refine ⟨fun hcontra => by simp at hcontra, fun _ it hit => ?_⟩
      have hior : it = plannerAbortResult := by
        have h' := hit; simp at h'; exact h'.symm
      subst hior
      exact fun hdec => Option.noConfusion hdec
    | ok planOut =>
      rw [hp] at h
      dsimp only at h
      cases hc : env.coder i with
      | fatal => rw [hc] at h; simp at h
      | maxTurns =>
        rw [hc] at h
        have hr : rest = [coderAbortResult planOut] ∧ succ = false := by
          simpa [eq_comm] using h
        obtain ⟨hrest, hsucc⟩ := hr
        subst hrest; subst hsucc
        refine ⟨fun hcontra => by simp at hcontra, fun _ it hit => ?_⟩
        have hior : it = coderAbortResult planOut := by
          have h' := hit; simp at h'; exact h'.symm
        subst hior
        exact fun hdec => Option.noConfusion hdec
      | ok coderOut =>
        rw [hc] at h
        dsimp only at h
        cases hrv : env.reviewer i with
        | fatal => rw [hrv] at h; simp at h
        | maxTurns =>
          rw [hrv] at h
          have hr : rest =
              [qaAbortResult planOut coderOut (run_pytest (env.pytest i))] ∧
              succ = false := by
            simpa [eq_comm] using h
          obtain ⟨hrest, hsucc⟩ := hr
          subst hrest; subst hsucc
          refine ⟨fun hcontra => by simp at hcontra, fun _ it hit => ?_⟩
          have hior : it = qaAbortResult planOut coderOut
              (run_pytest (env.pytest i)) := by
            have h' := hit; simp at h'; exact h'.symm
          subst hior
          exact fun hdec => Option.noConfusion hdec
        | ok qaOut =>
          rw [hrv] at h
          dsimp only at h
          by_cases hst : pipeline_qa_passed (coerce_review parse qaOut)
              (strOfQAOut qaOut) = some true
          · rw [if_pos hst] at h
            have hr : rest = [build_iteration_result planOut coderOut
                (format_summary (coerce_review parse qaOut) qaOut)
                (coerce_review parse qaOut)
                (run_pytest (env.pytest i))] ∧ succ = true := by
              simpa [eq_comm] using h
            obtain ⟨hrest, hsucc⟩ := hr
            subst hrest; subst hsucc
            refine ⟨fun _ => ⟨build_iteration_result planOut coderOut
              (format_summary (coerce_review parse qaOut) qaOut)
              (coerce_review parse qaOut) (run_pytest (env.pytest i)),
              by simp, ?_⟩, fun hcontra => by simp at hcontra⟩
            show qa_passed (coerce_review parse qaOut)
              (format_summary (coerce_review parse qaOut) qaOut) = some true
            rw [stored_decision_eq_computed]
            exact hst
          · rw [if_neg hst] at h
            cases hrec : iterLoop env parse (i + 1) f
              (some (planner_feedback (coerce_review parse qaOut) qaOut)) with
            | error u => cases u; rw [hrec] at h; simp at h
            | ok pr =>
              obtain ⟨rest', succ'⟩ := pr
              rw [hrec] at h
              have hr : rest = build_iteration_result planOut coderOut
                  (format_summary (coerce_review parse qaOut) qaOut)
                  (coerce_review parse qaOut)
                  (run_pytest (env.pytest i)) :: rest' ∧ succ = succ' := by
                simpa [eq_comm] using h
              obtain ⟨hrest, hsucc⟩ := hr
              subst hrest; subst hsucc
              obtain ⟨ih1, ih2⟩ := ih (i + 1) _ rest' _ hrec
              have hdecit : iterationDecision (build_iteration_result planOut
                  coderOut (format_summary (coerce_review parse qaOut) qaOut)
                  (coerce_review parse qaOut)
                  (run_pytest (env.pytest i))) ≠ some true := by
                show ¬ qa_passed (coerce_review parse qaOut)
                  (format_summary (coerce_review parse qaOut) qaOut) =
                    some true
                rw [stored_decision_eq_computed]
                exact hst
              constructor
              · intro htrue
                obtain ⟨it', hl', hd'⟩ := ih1 htrue
                cases rest' with
                | nil => simp at hl'
                | cons a l =>
                  exact ⟨it', by rw [List.getLast?_cons_cons]; exact hl', hd'⟩
              · intro hfalse it hit
                cases rest' with
                | nil =>
                  have hior : it = build_iteration_result planOut coderOut
                      (format_summary (coerce_review parse qaOut) qaOut)
                      (coerce_review parse qaOut)
                      (run_pytest (env.pytest i)) := by
                    have h' := hit; simp at h'; exact h'.symm
                  subst hior
                  exact hdecit
                | cons a l =>
                  rw [List.getLast?_cons_cons] at hit
                  exact ih2 hfalse it hit

/-- C2: whenever the workflow returns a result, its `success` flag is
true exactly when the last recorded iteration's stored QA review and
summary (the raw reviewer text when no review parsed) resolve to PASS. -/
theorem success_iff_last_iteration_passes (env : WorkflowEnv)
    (parse : String → Option QAReview) (s : RuntimeSettings)
    (r : WorkflowResult) (h : execute_workflow env parse s = .ok r) :
    r.success = true ↔
      ∃ it, r.iterations.getLast? = some it ∧
        iterationDecision it = some true := by
  unfold execute_workflow at h
  cases hloop : iterLoop env parse 1 3 none with
  | error u => cases u; rw [hloop] at h; simp at h
  | ok p =>
    obtain ⟨its, succ⟩ := p
    rw [hloop] at h
    have hr : r = ⟨its, succ⟩ := by simpa [eq_comm] using h
    subst hr
    obtain ⟨h1, h2⟩ :=
      iterLoop_success_characterization env parse 3 1 none its succ hloop
    constructor
    · exact h1
    · intro ⟨it, hl, hd⟩
      cases hsucc : succ with
      | true => rfl
      | false => exact absurd hd (h2 hsucc it hl)

/-- The single iteration produced by `envPassFirst`. -/
def passIteration : IterationResult :=
  ⟨"plan", "applied", "All good.\nOVERALL_STATUS: PASS", none,
   some "pytest -q", some 0, some "1 passed"⟩

/-- Witness for C2: on a run whose reviewer declares PASS on iteration 1
the equivalence holds at the concrete returned result. -/
theorem success_iff_last_iteration_passes_witness :
    (WorkflowResult.mk [passIteration] true).success = true ↔
      ∃ it, (WorkflowResult.mk [passIteration] true).iterations.getLast? =
          some it ∧ iterationDecision it = some true :=
  success_iff_last_iteration_passes envPassFirst parseNone
    settingsOneIteration ⟨[passIteration], true⟩ (by rfl)

/-- C1 (code bug): the controller loops over the hardcoded bound 3 of
`pipeline.py` line 311 and ignores `settings.max_iterations`: with a
validated budget of 1 and a reviewer that always fails, the returned
result holds 3 iteration records. -/
theorem workflow_ignores_max_iterations_setting :
    resolve_iterations (fun _ => none) (some 1) none = .ok 1 ∧
    settingsOneIteration.max_iterations = 1 ∧
    (execute_workflow envAlwaysFail parseNone
        settingsOneIteration).toOption.map (fun r => r.iterations.length) =
      some 3 := by
  exact ⟨rfl, rfl, by decide⟩

/-- C6: a turn-limit escape on the planner, coder, or reviewer appends
exactly the documented partial iteration record and terminates the loop
immediately with `success = false`; a run whose second planner call
exceeds its turn limit keeps the first iteration's record unchanged. -/
theorem turn_limit_aborts_workflow :
    (∀ (env : WorkflowEnv) (parse : String → Option QAReview)
        (i fuel : Nat) (fb : Option String),
      env.planner i fb = .maxTurns →
      iterLoop env parse i (fuel + 1) fb =
        .ok ([plannerAbortResult], false)) ∧
    (∀ (env : WorkflowEnv) (parse : String → Option QAReview)
        (i fuel : Nat) (fb : Option String) (p : String),
      env.planner i fb = .ok p → env.coder i = .maxTurns →
      iterLoop env parse i (fuel + 1) fb =
        .ok ([coderAbortResult p], false)) ∧
    (∀ (env : WorkflowEnv) (parse : String → Option QAReview)
        (i fuel : Nat) (fb : Option String) (p c : String),
      env.planner i fb = .ok p → env.coder i = .ok c →
      env.reviewer i = .maxTurns →
      iterLoop env parse i (fuel + 1) fb =
        .ok ([qaAbortResult p c (run_pytest (env.pytest i))], false)) ∧
    execute_workflow envPlannerDiesSecond parseNone settingsOneIteration =
      .ok ⟨[demoIteration1, plannerAbortResult], false⟩ := by
  refine ⟨?_, ?_, ?_, by rfl⟩
  · intro env parse i fuel fb hp
    simp [iterLoop, hp]
  · intro env parse i fuel fb p hp hc
    simp [iterLoop, hp, hc]
  · intro env parse i fuel fb p c hp hc hrv
    simp [iterLoop, hp, hc, hrv]

/-- Witness for C6: the second planner call of `envPlannerDiesSecond`
exceeds its turn limit, so the loop starting at iteration 2 yields only
the synthetic planner record and no success. -/
theorem turn_limit_aborts_workflow_witness :
    iterLoop envPlannerDiesSecond parseNone 2 1 none =
      .ok ([plannerAbortResult], false) :=
  turn_limit_aborts_workflow.1 envPlannerDiesSecond parseNone 2 0 none rfl

end ASC

